import Mathlib

/-!
Shallow embedding of `ceng322_pa2.c`, a line-oriented command interpreter
(mini shell).  The embedding covers:

* the classifier loop of `process_command_line` (lines 140-166), modelled as a
  token-by-token step function on a parse state; because the C code writes
  into fixed arrays (`left_args`, `right_args`, `second_command`) and can
  overwrite earlier cells (a later `|` resets the counter `j`), the arrays are
  modelled as the chronological list of writes `(array, index, value)`, with
  `value = none` standing for the `NULL` terminator;
* the dispatch and orchestration part of `process_command_line`
  (lines 168-217) and `run_sequence_command` (lines 104-126), modelled as
  per-actor lists of syscall events, parameterised by the outcomes the
  operating system reports (`fork` success, the child status seen by
  `waitpid`);
* `add_to_history` (lines 17-30) and the `history` builtin listing
  (lines 90-94).  The `strncpy` truncation to `MAX_COMMAND_LENGTH` is
  lossless in the program because every line comes from `main`'s
  `char command[MAX_COMMAND_LENGTH]` buffer, so commands are modelled as
  plain strings.
-/

def MAX_COMMAND_LENGTH : Nat := 100

def MAX_ARGS : Nat := 11

def HISTORY_SIZE : Nat := 10

/-- The three token arrays written by the classifier loop:
`left_args`, `right_args`, `second_command` (the declared but never used
`args` array is omitted). -/
inductive Arr where
  | left
  | right
  | second
deriving DecidableEq, Repr

/-- One store into a token array: which array, at which index, and the value
(`none` is the `NULL` terminator). -/
abbrev ArrWrite := Arr × Nat × Option String

/-- The classifier's loop state: the chronological list of array writes so
far, the counters `i` and `j`, the flags `in_pipe`, `has_second_command`,
`background`, and whether the loop has executed `break` (`stopped`). -/
structure ParseState where
  writes : List ArrWrite
  i : Nat
  j : Nat
  in_pipe : Bool
  has_second_command : Bool
  background : Bool
  stopped : Bool
deriving DecidableEq, Repr

/-- The state at the top of `process_command_line`:
`i = 0, j = 0, in_pipe = 0, background = 0, has_second_command = 0`. -/
def initState : ParseState :=
  { writes := [], i := 0, j := 0, in_pipe := false,
    has_second_command := false, background := false, stopped := false }

/-- One iteration of the `while (token != NULL)` loop of
`process_command_line` (source lines 141-162).  A stopped state (the loop
has executed `break`) ignores the remaining tokens. -/
def stepToken (s : ParseState) (tok : String) : ParseState :=
  if s.stopped then s
  else if tok = "&" ∧ s.in_pipe = false ∧ s.has_second_command = false then
    { s with background := true, stopped := true }
  else if tok = "|" then
    { s with writes := s.writes ++ [(Arr.left, s.j, none)], j := 0,
             in_pipe := true }
  else if tok = "&&" then
    { s with writes := s.writes ++ [(Arr.left, s.j, none)], i := 0,
             has_second_command := true }
  else if s.in_pipe = true then
    { s with writes := s.writes ++ [(Arr.right, s.j, some tok)], j := s.j + 1 }
  else if s.has_second_command = true then
    { s with writes := s.writes ++ [(Arr.second, s.i, some tok)], i := s.i + 1 }
  else
    { s with writes := s.writes ++ [(Arr.left, s.j, some tok)], j := s.j + 1 }

/-- The whole classifier: fold the loop over the token list, then the three
terminator stores `left_args[j] = NULL; right_args[j] = NULL;
second_command[i] = NULL` (source lines 164-166). -/
def parseLine (toks : List String) : ParseState :=
  let s := toks.foldl stepToken initState
  { s with writes := s.writes ++
      [(Arr.left, s.j, none), (Arr.right, s.j, none), (Arr.second, s.i, none)] }

/-- The last value stored into `a[idx]`, if any (`none` means the cell was
never written, i.e. holds garbage). -/
def lookupArr (ws : List ArrWrite) (a : Arr) (idx : Nat) :
    Option (Option String) :=
  (ws.filter (fun w => w.1 = a ∧ w.2.1 = idx)).getLast? |>.map (fun w => w.2.2)

/-- Read the argument vector stored in array `a` starting at `idx`, the way
`execvp` consumes it: cell by cell until a `NULL` terminator (or an
unwritten cell) is reached.  `fuel` bounds the recursion. -/
def readFrom (ws : List ArrWrite) (a : Arr) (idx fuel : Nat) : List String :=
  match fuel with
  | 0 => []
  | fuel + 1 =>
    match lookupArr ws a idx with
    | some (some s) => s :: readFrom ws a (idx + 1) fuel
    | _ => []

/-- The argument vector of array `a` after the classifier ran: read from
index 0.  The fuel `ws.length` suffices because every non-terminator cell
that is read consumed a distinct write. -/
def readArgv (ws : List ArrWrite) (a : Arr) : List String :=
  readFrom ws a 0 ws.length

/-- The builtin test of `process_command_line` (source lines 169-170):
`left_args[0]` is non-NULL and equals `cd`, `pwd`, `history` or `exit`. -/
def isBuiltinHead (argv : List String) : Bool :=
  match argv.head? with
  | some s => s = "cd" || s = "pwd" || s = "history" || s = "exit"
  | none => false

/-- What `waitpid` reports about a terminated child: a normal exit with the
8-bit status `WEXITSTATUS` (`exited`), or termination by a signal
(`signaled`, for which `WIFEXITED` is false). -/
inductive ChildStatus where
  | exited (code : Nat)
  | signaled (sig : Nat)
deriving DecidableEq, Repr

/-- The actors of one processed line: the interpreter process itself and the
(up to) two children it forks. -/
inductive Who where
  | parent
  | child1
  | child2
deriving DecidableEq, Repr

/-- The two ends of the pipe created for a pipeline: `pipefd[0]` (read) and
`pipefd[1]` (write). -/
inductive PipeEnd where
  | readEnd
  | writeEnd
deriving DecidableEq, Repr

/-- The standard streams a pipe end is dup2-ed onto. -/
inductive Fd where
  | stdin
  | stdout
deriving DecidableEq, Repr

/-- Syscall-level events of one processed line, tagged by the actor that
performs them. -/
inductive Ev where
  | fork (child : Who)
  | closePipe (who : Who) (e : PipeEnd)
  | dupToFd (who : Who) (e : PipeEnd) (f : Fd)
  | execProg (who : Who) (argv : List String)
  | waitFor (child : Who)
  | reportPid (child : Who)
deriving DecidableEq, Repr

/-- `run_sequence_command(args, background)` (source lines 104-126), for the
child labelled `who` with argument vector `argv`.  Returns the events of the
calling parent, the events of the forked child, and the function's `int`
return value:

* `fork` failure: `perror` and return `-1`, nothing spawned;
* child: `execvp(args[0], args)`;
* parent, foreground: `waitpid`; if the child exited normally return its
  `WEXITSTATUS`, otherwise fall through to `return 0`;
* parent, background: print the PID and return `0`. -/
def run_sequence_command (who : Who) (argv : List String) (background : Bool)
    (forkOk : Bool) (status : ChildStatus) : List Ev × List Ev × Int :=
  if forkOk = false then ([], [], -1)
  else
    ( [Ev.fork who] ++
        (if background then [Ev.reportPid who] else [Ev.waitFor who]),
      [Ev.execProg who argv],
      if background then 0
      else
        match status with
        | ChildStatus.exited c => (c : Int)
        | ChildStatus.signaled _ => 0 )

/-- Which of the mutually exclusive branches of `process_command_line`
(source lines 168-217) handled the line. -/
inductive Shape where
  | builtin
  | pipeline
  | sequence
  | single
deriving DecidableEq, Repr

/-- The observable outcome of `process_command_line` after classification:
the branch taken, the events of the parent and of the two possible children,
and whether the sequence branch ran its second command. -/
structure ProcResult where
  shape : Shape
  parentEvents : List Ev
  child1Events : List Ev
  child2Events : List Ev
  seqSecondRan : Bool
deriving DecidableEq, Repr

/-- The dispatch-and-execute part of `process_command_line`
(source lines 168-217), given the classifier state of the line.
`pipeOk` is whether `pipe()` succeeds, `fork1Ok`/`fork2Ok` whether the forks
inside `run_sequence_command` succeed, and `st1`/`st2` the statuses
`waitpid` reports for the first and second child.

* builtin (lines 169-173): `execute_builtin_command` runs in the parent, no
  child is created;
* pipeline (lines 175-207): fork two children; child 1 closes the read end,
  dup2s the write end onto stdout, closes it, and execs `left_args`;
  child 2 symmetrically execs `right_args` with stdin from the read end;
  the parent closes both ends and then either waits for both children
  (foreground) or prints both PIDs (background);
* sequence (lines 208-213): run `left_args` via `run_sequence_command`;
  if that returned `0`, run `second_command` the same way;
* single (lines 214-217): run `left_args` via `run_sequence_command`. -/
def process_dispatch (p : ParseState) (pipeOk fork1Ok fork2Ok : Bool)
    (st1 st2 : ChildStatus) : ProcResult :=
  let lA := readArgv p.writes Arr.left
  let rA := readArgv p.writes Arr.right
  let sA := readArgv p.writes Arr.second
  if isBuiltinHead lA then
    { shape := Shape.builtin, parentEvents := [], child1Events := [],
      child2Events := [], seqSecondRan := false }
  else if p.in_pipe then
    if pipeOk = false then
      { shape := Shape.pipeline, parentEvents := [], child1Events := [],
        child2Events := [], seqSecondRan := false }
    else
      { shape := Shape.pipeline,
        parentEvents :=
          [Ev.fork Who.child1, Ev.fork Who.child2,
           Ev.closePipe Who.parent PipeEnd.readEnd,
           Ev.closePipe Who.parent PipeEnd.writeEnd] ++
          (if p.background then [Ev.reportPid Who.child1, Ev.reportPid Who.child2]
           else [Ev.waitFor Who.child1, Ev.waitFor Who.child2]),
        child1Events :=
          [Ev.closePipe Who.child1 PipeEnd.readEnd,
           Ev.dupToFd Who.child1 PipeEnd.writeEnd Fd.stdout,
           Ev.closePipe Who.child1 PipeEnd.writeEnd,
           Ev.execProg Who.child1 lA],
        child2Events :=
          [Ev.closePipe Who.child2 PipeEnd.writeEnd,
           Ev.dupToFd Who.child2 PipeEnd.readEnd Fd.stdin,
           Ev.closePipe Who.child2 PipeEnd.readEnd,
           Ev.execProg Who.child2 rA],
        seqSecondRan := false }
  else if p.has_second_command then
    let r1 := run_sequence_command Who.child1 lA p.background fork1Ok st1
    if r1.2.2 = 0 then
      let r2 := run_sequence_command Who.child2 sA p.background fork2Ok st2
      { shape := Shape.sequence, parentEvents := r1.1 ++ r2.1,
        child1Events := r1.2.1, child2Events := r2.2.1, seqSecondRan := true }
    else
      { shape := Shape.sequence, parentEvents := r1.1,
        child1Events := r1.2.1, child2Events := [], seqSecondRan := false }
  else
    let r := run_sequence_command Who.child1 lA p.background fork1Ok st1
    { shape := Shape.single, parentEvents := r.1, child1Events := r.2.1,
      child2Events := [], seqSecondRan := false }

/-- The whole of `process_command_line` on an already tokenized line
(tokenization by `strtok` on blanks; `add_to_history` is modelled
separately). -/
def process_command_line (toks : List String) (pipeOk fork1Ok fork2Ok : Bool)
    (st1 st2 : ChildStatus) : ProcResult :=
  process_dispatch (parseLine toks) pipeOk fork1Ok fork2Ok st1 st2

/-- Number of `fork` events (children created) in an event list. -/
def countForks (evs : List Ev) : Nat :=
  (evs.filter (fun e => match e with | Ev.fork _ => true | _ => false)).length

/-- `add_to_history` (source lines 17-30): when the buffer is full
(`history_count == HISTORY_SIZE`) shift every entry down by one and put the
new command last; otherwise append it.  Commands are strings of fewer than
`MAX_COMMAND_LENGTH` characters (they come from `main`'s bounded buffer), so
the `strncpy` copy is lossless. -/
def add_to_history (h : List String) (command : String) : List String :=
  if h.length = HISTORY_SIZE then h.tail ++ [command]
  else h ++ [command]

/-- The `history` builtin listing (source lines 90-94): entries in order,
printed as `i+1 : history[i]`, capped at `HISTORY_SIZE`. -/
def historyListing (h : List String) : List (Nat × String) :=
  (h.take HISTORY_SIZE).enum.map (fun p => (p.1 + 1, p.2))

/-! ## Helper lemmas about the classifier loop -/

theorem stepToken_stopped {s : ParseState} (h : s.stopped = true)
    (t : String) : stepToken s t = s := by
  unfold stepToken
  simp [h]

theorem foldl_stepToken_stopped (ts : List String) :
    ∀ s : ParseState, s.stopped = true → List.foldl stepToken s ts = s := by
  induction ts with
  | nil => intro s _; rfl
  | cons t ts ih =>
    intro s h
    rw [List.foldl_cons, stepToken_stopped h]
    exact ih s h

theorem stepToken_has_second {s : ParseState} {t : String}
    (h : (stepToken s t).has_second_command = true) :
    s.has_second_command = true ∨ t = "&&" := by
  unfold stepToken at h
  split_ifs at h <;> simp_all

theorem stepToken_in_pipe {s : ParseState} {t : String}
    (h : (stepToken s t).in_pipe = true) :
    s.in_pipe = true ∨ t = "|" := by
  unfold stepToken at h
  split_ifs at h <;> simp_all

theorem foldl_has_second_mem (ts : List String) :
    ∀ s : ParseState, (List.foldl stepToken s ts).has_second_command = true →
      s.has_second_command = true ∨ "&&" ∈ ts := by
  induction ts with
  | nil => intro s h; exact Or.inl h
  | cons t ts ih =>
    intro s h
    rw [List.foldl_cons] at h
    rcases ih (stepToken s t) h with h1 | h1
    · rcases stepToken_has_second h1 with h2 | h2
      · exact Or.inl h2
      · exact Or.inr (by simp [h2])
    · exact Or.inr (List.mem_cons_of_mem _ h1)

theorem foldl_in_pipe_mem (ts : List String) :
    ∀ s : ParseState, (List.foldl stepToken s ts).in_pipe = true →
      s.in_pipe = true ∨ "|" ∈ ts := by
  induction ts with
  | nil => intro s h; exact Or.inl h
  | cons t ts ih =>
    intro s h
    rw [List.foldl_cons] at h
    rcases ih (stepToken s t) h with h1 | h1
    · rcases stepToken_in_pipe h1 with h2 | h2
      · exact Or.inl h2
      · exact Or.inr (by simp [h2])
    · exact Or.inr (List.mem_cons_of_mem _ h1)

theorem parseLine_in_pipe (ts : List String) :
    (parseLine ts).in_pipe = (List.foldl stepToken initState ts).in_pipe := rfl

theorem parseLine_has_second (ts : List String) :
    (parseLine ts).has_second_command =
      (List.foldl stepToken initState ts).has_second_command := rfl

/-! ## C1: the `pipeline`/`sequence` exclusivity invariant -/

/-- C1 counterexample: the line `A | B && C` is classified with BOTH
`in_pipe` and `has_second_command` set, refuting the claimed invariant that
at most one of the `pipeline`/`sequence` flags is ever set. -/
theorem c1_both_flags_set_counterexample :
    (parseLine ["A", "|", "B", "&&", "C"]).in_pipe = true ∧
    (parseLine ["A", "|", "B", "&&", "C"]).has_second_command = true := by
  exact ⟨rfl, rfl⟩

/-- C1 (amended): for every line that does not contain both a `|` token and
a `&&` token, at most one of the `in_pipe`/`has_second_command` flags is
set; a line containing both operators sets both flags, but the dispatcher
tests `in_pipe` first, so such a line is executed as a pipeline (shown here
on `A | B && C`). -/
theorem c1_flags_exclusive_unless_both_operators :
    (∀ ts : List String, ¬ ("|" ∈ ts ∧ "&&" ∈ ts) →
      ¬ ((parseLine ts).in_pipe = true ∧
         (parseLine ts).has_second_command = true)) ∧
    (process_command_line ["A", "|", "B", "&&", "C"] true true true
        (ChildStatus.exited 0) (ChildStatus.exited 0)).shape = Shape.pipeline := by
  constructor
  · intro ts hops hboth
    apply hops
    constructor
    · have := foldl_in_pipe_mem ts initState
        ((parseLine_in_pipe ts) ▸ hboth.1)
      simpa [initState] using this
    · have := foldl_has_second_mem ts initState
        ((parseLine_has_second ts) ▸ hboth.2)
      simpa [initState] using this
  · rfl

/-- C1 witness: the single-command line `ls -l` contains neither operator
and indeed does not get both flags. -/
theorem c1_flags_exclusive_witness :
    ¬ ((parseLine ["ls", "-l"]).in_pipe = true ∧
       (parseLine ["ls", "-l"]).has_second_command = true) :=
  c1_flags_exclusive_unless_both_operators.1 ["ls", "-l"] (by decide)

/-! ## C2: empty primary command -/

/-- C2: the code at the failing input.  On the empty line the classifier
leaves `left_args[0] = NULL`, yet `process_command_line` still reaches the
normal-execution branch and `run_sequence_command` forks a child, which
attempts `execvp(NULL, ...)` (modelled as an exec of the empty argument
vector).  The claim that no child process is created for an empty primary
command is violated: exactly one child is forked. -/
theorem c2_empty_line_still_forks :
    countForks (process_command_line [] true true true (ChildStatus.exited 0)
        (ChildStatus.exited 0)).parentEvents = 1 ∧
    (process_command_line [] true true true (ChildStatus.exited 0)
        (ChildStatus.exited 0)).child1Events =
      [Ev.execProg Who.child1 []] := by
  exact ⟨rfl, rfl⟩

/-! ## C3: argument-array capacity -/

theorem stepToken_bound {s : ParseState} {n : Nat} (t : String)
    (hj : s.j ≤ n) (hi : s.i ≤ n) (hw : ∀ w ∈ s.writes, w.2.1 ≤ n) :
    (stepToken s t).j ≤ n + 1 ∧ (stepToken s t).i ≤ n + 1 ∧
    ∀ w ∈ (stepToken s t).writes, w.2.1 ≤ n + 1 := by
  have hj' : s.j ≤ n + 1 := Nat.le_succ_of_le hj
  have hi' : s.i ≤ n + 1 := Nat.le_succ_of_le hi
  have hw' : ∀ w ∈ s.writes, w.2.1 ≤ n + 1 :=
    fun w hm => Nat.le_succ_of_le (hw w hm)
  have happ : ∀ c : ArrWrite, c.2.1 ≤ n + 1 →
      ∀ w ∈ s.writes ++ [c], w.2.1 ≤ n + 1 := by
    intro c hc w hm
    rcases List.mem_append.1 hm with hm | hm
    · exact hw' w hm
    · rw [List.mem_singleton.1 hm]; exact hc
  unfold stepToken
  split_ifs
  · exact ⟨hj', hi', hw'⟩
  · exact ⟨hj', hi', hw'⟩
  · exact ⟨Nat.zero_le _, hi', happ _ hj'⟩
  · exact ⟨hj', Nat.zero_le _, happ _ hj'⟩
  · exact ⟨Nat.succ_le_succ hj, hi', happ _ hj'⟩
  · exact ⟨hj', Nat.succ_le_succ hi, happ _ hi'⟩
  · exact ⟨Nat.succ_le_succ hj, hi', happ _ hj'⟩

theorem foldl_stepToken_bound (ts : List String) :
    ∀ (s : ParseState) (n : Nat), s.j ≤ n → s.i ≤ n →
      (∀ w ∈ s.writes, w.2.1 ≤ n) →
      (List.foldl stepToken s ts).j ≤ n + ts.length ∧
      (List.foldl stepToken s ts).i ≤ n + ts.length ∧
      ∀ w ∈ (List.foldl stepToken s ts).writes, w.2.1 ≤ n + ts.length := by
  induction ts with
  | nil => intro s n hj hi hw; exact ⟨hj, hi, hw⟩
  | cons t ts ih =>
    intro s n hj hi hw
    rw [List.foldl_cons]
    obtain ⟨hj1, hi1, hw1⟩ := stepToken_bound t hj hi hw
    obtain ⟨hj2, hi2, hw2⟩ := ih (stepToken s t) (n + 1) hj1 hi1 hw1
    refine ⟨by simpa [Nat.add_right_comm] using hj2,
            by simpa [Nat.add_right_comm] using hi2, ?_⟩
    intro w hmem
    have := hw2 w hmem
    simp [List.length_cons]
    omega

/-- C3 counterexample: there is no capacity check at all.  A line of 11
plain tokens makes the classifier store the `NULL` terminators
`left_args[11]` and `right_args[11]`, i.e. at index `MAX_ARGS = 11`, past
the last valid index of the `MAX_ARGS`-sized arrays — refuting both the
claimed loud rejection and the claimed absence of out-of-bounds stores. -/
theorem c3_out_of_bounds_write_counterexample :
    ((parseLine (List.replicate 11 "a")).writes.any
        (fun w => decide (MAX_ARGS ≤ w.2.1))) = true := by
  rfl

/-- C3 (amended): the classifier performs no capacity check; instead, every
store stays below `MAX_ARGS` only for lines of fewer than `MAX_ARGS`
tokens, and a longer line stores past the end of the arrays (see the
counterexample). -/
theorem c3_writes_bounded_for_short_lines (ts : List String)
    (h : ts.length < MAX_ARGS) :
    ∀ w ∈ (parseLine ts).writes, w.2.1 < MAX_ARGS := by
  obtain ⟨hj, hi, hw⟩ := foldl_stepToken_bound ts initState 0
    (by simp [initState]) (by simp [initState]) (by simp [initState])
  intro w hmem
  have hmem' : w ∈ (List.foldl stepToken initState ts).writes ++
      [(Arr.left, (List.foldl stepToken initState ts).j, none),
       (Arr.right, (List.foldl stepToken initState ts).j, none),
       (Arr.second, (List.foldl stepToken initState ts).i, none)] := hmem
  simp only [List.mem_append, List.mem_cons, List.not_mem_nil, or_false]
    at hmem'
  have hlen : ts.length < 11 := h
  rcases hmem' with hmem' | hmem' | hmem' | hmem'
  · have := hw w hmem'
    show w.2.1 < 11
    omega
  · subst hmem'
    show (List.foldl stepToken initState ts).j < 11
    omega
  · subst hmem'
    show (List.foldl stepToken initState ts).j < 11
    omega
  · subst hmem'
    show (List.foldl stepToken initState ts).i < 11
    omega

/-- C3 witness: a 3-token line keeps every store strictly below
`MAX_ARGS`. -/
theorem c3_writes_bounded_witness :
    ((parseLine ["ls", "-l", "/tmp"]).writes.all
        (fun w => decide (w.2.1 < MAX_ARGS))) = true := by
  have h := c3_writes_bounded_for_short_lines ["ls", "-l", "/tmp"] (by decide)
  simp only [List.all_eq_true, decide_eq_true_eq]
  exact h

/-! ## C4: `background` combined with `pipeline` -/

theorem stepToken_background_inv {s : ParseState} (t : String)
    (hs : s.background = true →
      s.in_pipe = false ∧ s.has_second_command = false ∧ s.stopped = true) :
    (stepToken s t).background = true →
      (stepToken s t).in_pipe = false ∧
      (stepToken s t).has_second_command = false ∧
      (stepToken s t).stopped = true := by
  unfold stepToken
  split_ifs <;> intro hb <;> simp_all

theorem foldl_background_inv (ts : List String) :
    ∀ s : ParseState,
      (s.background = true →
        s.in_pipe = false ∧ s.has_second_command = false ∧ s.stopped = true) →
      (List.foldl stepToken s ts).background = true →
        (List.foldl stepToken s ts).in_pipe = false ∧
        (List.foldl stepToken s ts).has_second_command = false ∧
        (List.foldl stepToken s ts).stopped = true := by
  induction ts with
  | nil => intro s hs; exact hs
  | cons t ts ih =>
    intro s hs
    rw [List.foldl_cons]
    exact ih (stepToken s t) (stepToken_background_inv t hs)

/-- C4 counterexample: on the line `A | B &` the classifier does NOT set
`background`: the `&` arrives with `in_pipe` already set, so the condition
on source line 142 fails and the `&` is appended to `right_args` instead.
This refutes the claim that `A | B &` sets both `pipeline` and
`background`. -/
theorem c4_pipe_background_counterexample :
    (parseLine ["A", "|", "B", "&"]).in_pipe = true ∧
    (parseLine ["A", "|", "B", "&"]).background = false := by
  exact ⟨rfl, rfl⟩

/-- C4 (amended): `background` never combines with `pipeline` or
`sequence` — it is set only when the `&` is scanned before any `|` or `&&`,
and scanning then stops, so whenever `background` is set both other flags
are still clear.  On `A | B &` specifically, the `&` becomes an ordinary
argument of the secondary command and the foreground path runs: the parent
waits for both children instead of reporting their PIDs. -/
theorem c4_background_excludes_pipeline :
    (∀ ts : List String, (parseLine ts).background = true →
      (parseLine ts).in_pipe = false ∧
      (parseLine ts).has_second_command = false) ∧
    readArgv (parseLine ["A", "|", "B", "&"]).writes Arr.right = ["B", "&"] ∧
    (process_command_line ["A", "|", "B", "&"] true true true
        (ChildStatus.exited 0) (ChildStatus.exited 0)).parentEvents =
      [Ev.fork Who.child1, Ev.fork Who.child2,
       Ev.closePipe Who.parent PipeEnd.readEnd,
       Ev.closePipe Who.parent PipeEnd.writeEnd,
       Ev.waitFor Who.child1, Ev.waitFor Who.child2] := by
  refine ⟨?_, rfl, rfl⟩
  intro ts hb
  have hb' : (List.foldl stepToken initState ts).background = true := hb
  have := foldl_background_inv ts initState (by simp [initState]) hb'
  exact ⟨this.1, this.2.1⟩

/-- C4 witness: `sleep &` sets `background`, and indeed neither `in_pipe`
nor `has_second_command` is set there. -/
theorem c4_background_excludes_witness :
    (parseLine ["sleep", "&"]).in_pipe = false ∧
    (parseLine ["sleep", "&"]).has_second_command = false :=
  c4_background_excludes_pipeline.1 ["sleep", "&"] rfl

/-! ## C8: `&` before any other operator backgrounds and truncates -/

theorem stepToken_plain {s : ParseState} {t : String}
    (ht : t ≠ "&" ∧ t ≠ "|" ∧ t ≠ "&&")
    (hp : s.in_pipe = false) (hh : s.has_second_command = false)
    (hst : s.stopped = false) :
    stepToken s t =
      { s with writes := s.writes ++ [(Arr.left, s.j, some t)],
               j := s.j + 1 } := by
  unfold stepToken
  simp [ht.1, ht.2.1, ht.2.2, hp, hh, hst]

theorem foldl_opfree_flags (ts : List String) :
    ∀ s : ParseState, (∀ t ∈ ts, t ≠ "&" ∧ t ≠ "|" ∧ t ≠ "&&") →
      s.in_pipe = false → s.has_second_command = false → s.stopped = false →
      (List.foldl stepToken s ts).in_pipe = false ∧
      (List.foldl stepToken s ts).has_second_command = false ∧
      (List.foldl stepToken s ts).stopped = false := by
  induction ts with
  | nil => intro s _ hp hh hst; exact ⟨hp, hh, hst⟩
  | cons t ts ih =>
    intro s hts hp hh hst
    rw [List.foldl_cons,
        stepToken_plain (hts t (List.mem_cons_self t ts)) hp hh hst]
    exact ih _ (fun u hu => hts u (List.mem_cons_of_mem t hu)) hp hh hst

/-- C8: if an `&` token is scanned while no `|` or `&&` has been seen (here:
the prefix before it holds no operator token at all), the classifier sets
`background` and stops consuming tokens — the parse result is the same
whatever follows the `&`, so `cmd1 & cmd2` silently drops `cmd2`. -/
theorem c8_background_truncates_scan (pre post : List String)
    (hpre : ∀ t ∈ pre, t ≠ "&" ∧ t ≠ "|" ∧ t ≠ "&&") :
    (parseLine (pre ++ "&" :: post)).background = true ∧
    parseLine (pre ++ "&" :: post) = parseLine (pre ++ ["&"]) := by
  have hflags := foldl_opfree_flags pre initState hpre rfl rfl rfl
  set s1 := List.foldl stepToken initState pre with hs1
  have hamp : stepToken s1 "&" =
      { s1 with background := true, stopped := true } := by
    unfold stepToken
    simp [hflags.1, hflags.2.1, hflags.2.2]
  have hfold : List.foldl stepToken initState (pre ++ "&" :: post) =
      { s1 with background := true, stopped := true } := by
    rw [List.foldl_append, List.foldl_cons, ← hs1, hamp]
    exact foldl_stepToken_stopped post _ rfl
  have hfold' : List.foldl stepToken initState (pre ++ ["&"]) =
      { s1 with background := true, stopped := true } := by
    rw [List.foldl_append, List.foldl_cons, ← hs1]
    exact hamp
  constructor
  · show (List.foldl stepToken initState (pre ++ "&" :: post)).background = true
    rw [hfold]
  · show ({ (List.foldl stepToken initState (pre ++ "&" :: post)) with
        writes := _ } : ParseState) = _
    unfold parseLine
    rw [hfold, hfold']

/-- C8 witness: `sleep 5 & junk` parses exactly like `sleep 5 &`, with
`background` set. -/
theorem c8_background_truncates_witness :
    (parseLine ["sleep", "5", "&", "junk"]).background = true ∧
    parseLine ["sleep", "5", "&", "junk"] = parseLine ["sleep", "5", "&"] :=
  c8_background_truncates_scan ["sleep", "5"] ["junk"] (by decide)

/-! ## C6: tokens equal to operator strings after the first operator -/

/-- C6 counterexample: in `A | B | C` the second `|` is NOT treated as an
ordinary argument of the secondary command.  It is re-recognized as an
operator: it resets the counter `j` to 0, so `C` overwrites `B` and the
secondary command becomes `["C"]` rather than `["B", "|", "C"]`. -/
theorem c6_second_pipe_counterexample :
    readArgv (parseLine ["A", "|", "B", "|", "C"]).writes Arr.right = ["C"] ∧
    readArgv (parseLine ["A", "|", "B", "|", "C"]).writes Arr.right ≠
      ["B", "|", "C"] := by
  refine ⟨rfl, ?_⟩
  decide

/-- C6 (amended): after the first recognized operator, only an `&` token is
treated as an ordinary argument (appended to the current target list); a
later `|` or `&&` token is still recognized as an operator: every `|`
stores a terminator into `left_args` at the current counter and resets the
counter `j` to 0, and every `&&` stores a terminator into `left_args` and
resets the counter `i` to 0. -/
theorem c6_later_operator_tokens :
    (∀ s : ParseState, s.stopped = false → s.in_pipe = true →
      stepToken s "&" =
        { s with writes := s.writes ++ [(Arr.right, s.j, some "&")],
                 j := s.j + 1 }) ∧
    (∀ s : ParseState, s.stopped = false → s.in_pipe = false →
      s.has_second_command = true →
      stepToken s "&" =
        { s with writes := s.writes ++ [(Arr.second, s.i, some "&")],
                 i := s.i + 1 }) ∧
    (∀ s : ParseState, s.stopped = false →
      stepToken s "|" =
        { s with writes := s.writes ++ [(Arr.left, s.j, none)], j := 0,
                 in_pipe := true }) ∧
    (∀ s : ParseState, s.stopped = false →
      stepToken s "&&" =
        { s with writes := s.writes ++ [(Arr.left, s.j, none)], i := 0,
                 has_second_command := true }) := by
  refine ⟨?_, ?_, ?_, ?_⟩ <;> intro s h1 <;> unfold stepToken <;> simp_all

/-- C6 witness: in pipeline mode an `&` is appended to `right_args` as an
ordinary argument, while a `|` resets `j` to 0. -/
theorem c6_later_operator_witness :
    stepToken { writes := [(Arr.left, 0, some "A"), (Arr.left, 1, none),
                           (Arr.right, 0, some "B")],
                i := 0, j := 1, in_pipe := true, has_second_command := false,
                background := false, stopped := false } "&" =
      { writes := [(Arr.left, 0, some "A"), (Arr.left, 1, none),
                   (Arr.right, 0, some "B"), (Arr.right, 1, some "&")],
        i := 0, j := 2, in_pipe := true, has_second_command := false,
        background := false, stopped := false } :=
  c6_later_operator_tokens.1
    { writes := [(Arr.left, 0, some "A"), (Arr.left, 1, none),
                 (Arr.right, 0, some "B")],
      i := 0, j := 1, in_pipe := true, has_second_command := false,
      background := false, stopped := false } rfl rfl

/-! ## Parse characterization of two-command lines -/

theorem parse_seq_line (a b : String)
    (ha : a ≠ "&" ∧ a ≠ "|" ∧ a ≠ "&&")
    (hb : b ≠ "&" ∧ b ≠ "|" ∧ b ≠ "&&") :
    parseLine [a, "&&", b] =
      { writes := [(Arr.left, 0, some a), (Arr.left, 1, none),
                   (Arr.second, 0, some b), (Arr.left, 1, none),
                   (Arr.right, 1, none), (Arr.second, 1, none)],
        i := 1, j := 1, in_pipe := false, has_second_command := true,
        background := false, stopped := false } := by
  simp [parseLine, stepToken, initState, ha.1, ha.2.1, ha.2.2,
        hb.1, hb.2.1, hb.2.2]

theorem parse_pipe_line (a b : String)
    (ha : a ≠ "&" ∧ a ≠ "|" ∧ a ≠ "&&")
    (hb : b ≠ "&" ∧ b ≠ "|" ∧ b ≠ "&&") :
    parseLine [a, "|", b] =
      { writes := [(Arr.left, 0, some a), (Arr.left, 1, none),
                   (Arr.right, 0, some b), (Arr.left, 1, none),
                   (Arr.right, 1, none), (Arr.second, 0, none)],
        i := 0, j := 1, in_pipe := true, has_second_command := false,
        background := false, stopped := false } := by
  simp [parseLine, stepToken, initState, ha.1, ha.2.1, ha.2.2,
        hb.1, hb.2.1, hb.2.2]

/-! ## C5: conditional sequence `A && B` -/

/-- C5: for a foreground line `A && B` (with `A`, `B` plain non-builtin
command names) whose primary child terminates normally with exit status
`c`, the branch is the sequence branch and the secondary command runs if
and only if `c = 0`; for non-zero `c` no second child is even forked. -/
theorem c5_sequence_second_iff_exit_zero (a b : String) (c : Nat)
    (st2 : ChildStatus)
    (ha : a ≠ "&" ∧ a ≠ "|" ∧ a ≠ "&&")
    (hb : b ≠ "&" ∧ b ≠ "|" ∧ b ≠ "&&")
    (hnb : isBuiltinHead [a] = false) :
    (process_command_line [a, "&&", b] true true true
        (ChildStatus.exited c) st2).shape = Shape.sequence ∧
    ((process_command_line [a, "&&", b] true true true
        (ChildStatus.exited c) st2).seqSecondRan = true ↔ c = 0) ∧
    (c = 0 →
      (process_command_line [a, "&&", b] true true true
          (ChildStatus.exited c) st2).child2Events =
        [Ev.execProg Who.child2 [b]]) ∧
    (c ≠ 0 →
      (process_command_line [a, "&&", b] true true true
          (ChildStatus.exited c) st2).child2Events = []) := by
  unfold process_command_line
  rw [parse_seq_line a b ha hb]
  by_cases hc : c = 0
  · subst hc
    simp [process_dispatch, run_sequence_command, readArgv, readFrom,
          lookupArr, hnb]
  · simp [process_dispatch, run_sequence_command, readArgv, readFrom,
          lookupArr, hnb, hc]

/-- C5 witness: `gcc && run` with the primary exiting 0 runs the secondary;
the instantiated iff at `c = 0`. -/
theorem c5_sequence_witness :
    (process_command_line ["gcc", "&&", "run"] true true true
        (ChildStatus.exited 0) (ChildStatus.exited 0)).seqSecondRan = true :=
  (c5_sequence_second_iff_exit_zero "gcc" "run" 0 (ChildStatus.exited 0)
    (by decide) (by decide) (by decide)).2.1.mpr rfl

/-! ## C10: signaled primary in a sequence -/

/-- C10: in a foreground sequence `A && B`, if the primary child is killed
by a signal (so `WIFEXITED` is false), `run_sequence_command` falls through
to `return 0`, and the interpreter therefore runs the secondary command `B`
exactly as if `A` had succeeded. -/
theorem c10_signaled_primary_runs_second (a b : String) (sg : Nat)
    (st2 : ChildStatus)
    (ha : a ≠ "&" ∧ a ≠ "|" ∧ a ≠ "&&")
    (hb : b ≠ "&" ∧ b ≠ "|" ∧ b ≠ "&&")
    (hnb : isBuiltinHead [a] = false) :
    (run_sequence_command Who.child1 [a] false true
        (ChildStatus.signaled sg)).2.2 = 0 ∧
    (process_command_line [a, "&&", b] true true true
        (ChildStatus.signaled sg) st2).seqSecondRan = true ∧
    (process_command_line [a, "&&", b] true true true
        (ChildStatus.signaled sg) st2).child2Events =
      [Ev.execProg Who.child2 [b]] := by
  refine ⟨rfl, ?_⟩
  unfold process_command_line
  rw [parse_seq_line a b ha hb]
  constructor <;>
    simp [process_dispatch, run_sequence_command, readArgv, readFrom,
          lookupArr, hnb]

/-- C10 witness: `gcc && run` with the primary killed by signal 9 still
runs `run`. -/
theorem c10_signaled_primary_witness :
    (process_command_line ["gcc", "&&", "run"] true true true
        (ChildStatus.signaled 9) (ChildStatus.exited 0)).seqSecondRan =
      true :=
  (c10_signaled_primary_runs_second "gcc" "run" 9 (ChildStatus.exited 0)
    (by decide) (by decide) (by decide)).2.1

/-! ## C7: foreground pipeline orchestration -/

/-- C7: for a foreground pipeline `A | B` (plain, non-builtin command
names) the parent forks both children, then closes both pipe ends, then
waits for both children; the first child closes the read end, redirects its
stdout onto the write end, closes that end and execs `A`; the second child
symmetrically redirects its stdin from the read end and execs `B`. -/
theorem c7_pipeline_foreground_trace (a b : String) (st1 st2 : ChildStatus)
    (ha : a ≠ "&" ∧ a ≠ "|" ∧ a ≠ "&&")
    (hb : b ≠ "&" ∧ b ≠ "|" ∧ b ≠ "&&")
    (hnb : isBuiltinHead [a] = false) :
    process_command_line [a, "|", b] true true true st1 st2 =
      { shape := Shape.pipeline,
        parentEvents :=
          [Ev.fork Who.child1, Ev.fork Who.child2,
           Ev.closePipe Who.parent PipeEnd.readEnd,
           Ev.closePipe Who.parent PipeEnd.writeEnd,
           Ev.waitFor Who.child1, Ev.waitFor Who.child2],
        child1Events :=
          [Ev.closePipe Who.child1 PipeEnd.readEnd,
           Ev.dupToFd Who.child1 PipeEnd.writeEnd Fd.stdout,
           Ev.closePipe Who.child1 PipeEnd.writeEnd,
           Ev.execProg Who.child1 [a]],
        child2Events :=
          [Ev.closePipe Who.child2 PipeEnd.writeEnd,
           Ev.dupToFd Who.child2 PipeEnd.readEnd Fd.stdin,
           Ev.closePipe Who.child2 PipeEnd.readEnd,
           Ev.execProg Who.child2 [b]],
        seqSecondRan := false } := by
  unfold process_command_line
  rw [parse_pipe_line a b ha hb]
  simp [process_dispatch, readArgv, readFrom, lookupArr, hnb]

/-- C7 witness: the concrete line `ls | wc` in the foreground. -/
theorem c7_pipeline_foreground_witness :
    process_command_line ["ls", "|", "wc"] true true true
        (ChildStatus.exited 0) (ChildStatus.exited 0) =
      { shape := Shape.pipeline,
        parentEvents :=
          [Ev.fork Who.child1, Ev.fork Who.child2,
           Ev.closePipe Who.parent PipeEnd.readEnd,
           Ev.closePipe Who.parent PipeEnd.writeEnd,
           Ev.waitFor Who.child1, Ev.waitFor Who.child2],
        child1Events :=
          [Ev.closePipe Who.child1 PipeEnd.readEnd,
           Ev.dupToFd Who.child1 PipeEnd.writeEnd Fd.stdout,
           Ev.closePipe Who.child1 PipeEnd.writeEnd,
           Ev.execProg Who.child1 ["ls"]],
        child2Events :=
          [Ev.closePipe Who.child2 PipeEnd.writeEnd,
           Ev.dupToFd Who.child2 PipeEnd.readEnd Fd.stdin,
           Ev.closePipe Who.child2 PipeEnd.readEnd,
           Ev.execProg Who.child2 ["wc"]],
        seqSecondRan := false } :=
  c7_pipeline_foreground_trace "ls" "wc" (ChildStatus.exited 0)
    (ChildStatus.exited 0) (by decide) (by decide) (by decide)

/-! ## C9: the history ring buffer -/

theorem foldl_add_to_history_len (ls : List String) :
    ∀ h : List String, h.length ≤ HISTORY_SIZE →
      (List.foldl add_to_history h ls).length ≤ HISTORY_SIZE := by
  induction ls with
  | nil => intro h hh; exact hh
  | cons c ls ih =>
    intro h hh
    rw [List.foldl_cons]
    apply ih
    have hh' : h.length ≤ 10 := hh
    unfold add_to_history
    split_ifs with hfull
    · have hfull' : h.length = 10 := hfull
      show (h.tail ++ [c]).length ≤ 10
      simp [List.length_tail]
      omega
    · have hfull' : h.length ≠ 10 := hfull
      show (h ++ [c]).length ≤ 10
      simp
      omega

/-- C9: the history buffer holds at most `HISTORY_SIZE = 10` entries, every
`add_to_history` appends exactly the processed line as the newest entry,
and after 12 submitted lines the buffer holds lines 3 through 12 in
submission order, listed by the `history` builtin numbered 1 through 10. -/
theorem c9_history_capacity_and_fifo :
    (∀ l1 l2 l3 l4 l5 l6 l7 l8 l9 l10 l11 l12 : String,
      List.foldl add_to_history []
          [l1, l2, l3, l4, l5, l6, l7, l8, l9, l10, l11, l12] =
        [l3, l4, l5, l6, l7, l8, l9, l10, l11, l12] ∧
      historyListing (List.foldl add_to_history []
          [l1, l2, l3, l4, l5, l6, l7, l8, l9, l10, l11, l12]) =
        [(1, l3), (2, l4), (3, l5), (4, l6), (5, l7), (6, l8), (7, l9),
         (8, l10), (9, l11), (10, l12)]) ∧
    (∀ ls : List String,
      (List.foldl add_to_history [] ls).length ≤ HISTORY_SIZE) ∧
    (∀ (h : List String) (c : String),
      (add_to_history h c).getLast? = some c) := by
  refine ⟨?_, ?_, ?_⟩
  · intro l1 l2 l3 l4 l5 l6 l7 l8 l9 l10 l11 l12
    constructor
    · simp [add_to_history, HISTORY_SIZE]
    · simp [add_to_history, HISTORY_SIZE, historyListing, List.enum]
  · intro ls
    exact foldl_add_to_history_len ls [] (by simp [HISTORY_SIZE])
  · intro h c
    unfold add_to_history
    split_ifs <;> simp
